import Mathlib

/-!
Verification development for a small online-voting backend
(FastAPI + peewee/SQLite). The embedding below translates the
vote-admission endpoint (`create_vote` in `main.py`), the tallying
endpoints (`get_poll_results`, `get_election_stats`), the election
write endpoints (`create_election`, `update_election`), and the
storage-level constraints declared in `models.py`.

Modelling conventions:
- `datetime` values are modelled as integers on a single timeline
  (comparison of datetimes is a total order; only comparisons matter).
- Python floats in the percentage computation are modelled as exact
  rationals (`ℚ`); Python's built-in `round` is modelled as
  round-half-to-even (its documented behaviour).
- Store rows live in lists; `Model.get(id)` becomes `List.find?` on the
  id; `DoesNotExist` becomes `none`.
- The SQLite unique index on `votes (poll, voter)` (`models.py` line
  120) is modelled inside the insert operation, which fails when a row
  with the same `(pollId, voterId)` pair is already present.
-/

namespace Voting

/-- Row of the elections table (`models.py`, class `Election`); `start_date` /
`end_date` are datetimes, modelled as integers. -/
structure Election where
  id : Nat
  title : String
  startDate : Int
  endDate : Int
  isActive : Bool
deriving Repr, DecidableEq

/-- Row of the polls table (`models.py`, class `Poll`); `election` is a foreign key. -/
structure Poll where
  id : Nat
  electionId : Nat
  title : String
  maxVotesPerVoter : Int
  isActive : Bool
deriving Repr, DecidableEq

/-- Row of the candidates table (`models.py`, class `Candidate`); `poll` is a
foreign key. -/
structure Candidate where
  id : Nat
  pollId : Nat
  name : String
  description : Option String
deriving Repr, DecidableEq

/-- Row of the voters table (`models.py`, class `Voter`). -/
structure Voter where
  id : Nat
  email : String
  name : String
  isVerified : Bool
deriving Repr, DecidableEq

/-- Row of the votes table (`models.py`, class `Vote`): foreign keys to poll,
candidate and voter, plus the `voted_at` timestamp. -/
structure Vote where
  id : Nat
  pollId : Nat
  candidateId : Nat
  voterId : Nat
  votedAt : Int
deriving Repr, DecidableEq

/-- The relational store: one list of rows per table. -/
structure Store where
  elections : List Election
  polls : List Poll
  candidates : List Candidate
  voters : List Voter
  votes : List Vote
deriving Repr, DecidableEq

/-- Lookup `Election.get(Election.id == id)`; `none` models `DoesNotExist`. -/
def Store.findElection (s : Store) (id : Nat) : Option Election :=
  s.elections.find? (fun e => e.id == id)

/-- Lookup `Poll.get(Poll.id == id)`. -/
def Store.findPoll (s : Store) (id : Nat) : Option Poll :=
  s.polls.find? (fun p => p.id == id)

/-- Lookup `Candidate.get(Candidate.id == id)`. -/
def Store.findCandidate (s : Store) (id : Nat) : Option Candidate :=
  s.candidates.find? (fun c => c.id == id)

/-- Lookup `Voter.get(Voter.id == id)`. -/
def Store.findVoter (s : Store) (id : Nat) : Option Voter :=
  s.voters.find? (fun v => v.id == id)

/-- Test that `Vote.select().where((Vote.poll == poll) & (Vote.voter == voter)).first()`
is non-null (`main.py` lines 377-379). -/
def Store.hasVote (s : Store) (pollId voterId : Nat) : Bool :=
  s.votes.any (fun v => v.pollId == pollId && v.voterId == voterId)

/-- Request body of `POST /votes/` (`schemas.py`, `VoteCreate`). -/
structure VoteCreate where
  poll_id : Nat
  candidate_id : Nat
  voter_id : Nat
deriving Repr, DecidableEq

/-- The distinct business-rule rejections of `create_vote`, in the
spec's vocabulary.  Each corresponds to one `HTTPException` raised in
`main.py` lines 359-416. -/
inductive ErrKind where
  | notFoundPoll
  | notFoundCandidate
  | notFoundVoter
  | invalidReference
  | conflict
  | invalidStatePoll
  | invalidStateVoter
  | invalidStateWindow
deriving Repr, DecidableEq

/-- Outcome of the `create_vote` handler: a persisted vote, a
classified error response, or an exception that escapes the handler
(no matching `except` clause, surfacing as an HTTP 500). -/
inductive AdmitResult where
  | ok (v : Vote)
  | err (k : ErrKind)
  | unhandled
deriving Repr, DecidableEq

/-- Outcome of the pre-insert validation section of `create_vote`
(`main.py` lines 363-405).  `crash` is the path where
`poll.election` (line 399) raises `Election.DoesNotExist`, which no
`except` clause of `create_vote` catches. -/
inductive CheckOutcome where
  | pass
  | fail (k : ErrKind)
  | crash
deriving Repr, DecidableEq

/-- The validation section of `create_vote` (`main.py` lines 363-405),
translated check by check and in source order:
1. `Poll.get` (line 365), 2. `Candidate.get` (line 366),
3. `Voter.get` (line 367), 4. `candidate.poll.id != poll.id`
(line 370; `candidate.poll` itself is a lazy foreign-key load that
raises `Poll.DoesNotExist` — caught at line 411 as a 404 — when the
candidate's poll row is absent), 5. prior-vote lookup (lines 377-385),
6. `poll.is_active` (line 388), 7. `voter.is_verified` (line 392),
8. election window with inclusive bounds (lines 399-405). -/
def admitChecks (s : Store) (now : Int) (req : VoteCreate) : CheckOutcome :=
  match s.findPoll req.poll_id with
  | none => .fail .notFoundPoll
  | some poll =>
    match s.findCandidate req.candidate_id with
    | none => .fail .notFoundCandidate
    | some candidate =>
      match s.findVoter req.voter_id with
      | none => .fail .notFoundVoter
      | some voter =>
        match s.findPoll candidate.pollId with
        | none => .fail .notFoundPoll
        | some candidatePoll =>
          if candidatePoll.id ≠ poll.id then .fail .invalidReference
          else if s.hasVote poll.id voter.id then .fail .conflict
          else if !poll.isActive then .fail .invalidStatePoll
          else if !voter.isVerified then .fail .invalidStateVoter
          else
            match s.findElection poll.electionId with
            | none => .crash
            | some election =>
              if now < election.startDate ∨ now > election.endDate then
                .fail .invalidStateWindow
              else .pass

/-- Fresh row id for an insert (autoincrement primary key). -/
def nextVoteId (s : Store) : Nat :=
  (s.votes.map (fun v => v.id)).foldr max 0 + 1

/-- The row built by `Vote.create(**vote.dict())` (`main.py` line 408)
with `voted_at = now`. -/
def mkVote (s : Store) (now : Int) (req : VoteCreate) : Vote :=
  { id := nextVoteId s, pollId := req.poll_id,
    candidateId := req.candidate_id, voterId := req.voter_id,
    votedAt := now }

/-- The store's insert for `votes`, enforcing the unique index on
`(poll, voter)` (`models.py` line 120): `none` models the
`IntegrityError` SQLite raises on a duplicate pair. -/
def storeInsertVote (s : Store) (v : Vote) : Option Store :=
  if s.hasVote v.pollId v.voterId then none
  else some { s with votes := s.votes ++ [v] }

/-- Handler `create_vote` (`main.py` lines 359-416), with the store possibly
having changed between the validation reads and the final insert:
`sCheck` is the state the checks observe, `sInsert` the state the
insert runs against.  With `sCheck = sInsert` this is the sequential
behaviour (`createVote` below).  A unique-constraint `IntegrityError`
at insert time is not matched by any `except` clause of `create_vote`
(only the three `DoesNotExist` exceptions are, lines 411-416), so that
path yields `unhandled`. -/
def createVoteRaced (sCheck sInsert : Store) (now : Int)
    (req : VoteCreate) : AdmitResult :=
  match admitChecks sCheck now req with
  | .fail k => .err k
  | .crash => .unhandled
  | .pass =>
    match storeInsertVote sInsert (mkVote sInsert now req) with
    | some _ => .ok (mkVote sInsert now req)
    | none => .unhandled

/-- Sequential `create_vote`: checks and insert see the same store. -/
def createVote (s : Store) (now : Int) (req : VoteCreate) : AdmitResult :=
  createVoteRaced s s now req

/-- Store state after a `create_vote` call: the vote row is appended
exactly when the request was admitted. -/
def createVoteStore (s : Store) (now : Int) (req : VoteCreate) : Store :=
  match createVote s now req with
  | .ok v => { s with votes := s.votes ++ [v] }
  | _ => s

/-! ## Tally engine -/

/-- Count `Vote.select().where(Vote.candidate == candidate).count()`
(`main.py` line 441). -/
def votesForCandidate (s : Store) (candidateId : Nat) : Nat :=
  (s.votes.filter (fun v => v.candidateId == candidateId)).length

/-- Count `Vote.select().where(Vote.poll == poll).count()`
(`main.py` lines 442 and 460). -/
def votesForPoll (s : Store) (pollId : Nat) : Nat :=
  (s.votes.filter (fun v => v.pollId == pollId)).length

/-- Backref `poll.candidates`: the candidates rows whose foreign key
points at the poll, in table order. -/
def pollCandidates (s : Store) (pollId : Nat) : List Candidate :=
  s.candidates.filter (fun c => c.pollId == pollId)

/-- Round a rational to the nearest integer, ties to even: the
documented behaviour of Python's built-in `round`. -/
def roundHalfEven (x : ℚ) : ℤ :=
  let f : ℤ := ⌊x⌋
  if x - f < 1/2 then f
  else if 1/2 < x - f then f + 1
  else if f % 2 = 0 then f else f + 1

/-- Python `round(x, 2)` modelled exactly over `ℚ`. -/
def pyRound2 (x : ℚ) : ℚ :=
  (roundHalfEven (x * 100) : ℚ) / 100

/-- One entry of the `results` list built by `get_poll_results`
(`main.py` lines 444-450). -/
structure ResultEntry where
  candidate_id : Nat
  candidate_name : String
  candidate_description : Option String
  votes : Nat
  percentage : ℚ
deriving Repr, DecidableEq, Inhabited

/-- Insert an entry into a descending-by-votes list, after every
element with at least as many votes. -/
def insertDescByVotes (r : ResultEntry) :
    List ResultEntry → List ResultEntry
  | [] => [r]
  | x :: xs =>
    if x.votes > r.votes then x :: insertDescByVotes r xs
    else r :: x :: xs

/-- Model of `results.sort` with the votes key and `reverse=True`
(`main.py` line 454): Python's `list.sort` is documented stable, and
`reverse=True` preserves the original order of equal elements, so the
faithful model is the stable descending sort on the `votes` key. -/
def sortDescByVotes : List ResultEntry → List ResultEntry
  | [] => []
  | x :: xs => insertDescByVotes x (sortDescByVotes xs)

/-- The entry `get_poll_results` builds for one candidate (`main.py`
lines 441-450): the percentage divides by the poll's vote count and is
guarded against a zero denominator. -/
def resultEntryFor (s : Store) (pollId : Nat) (c : Candidate) :
    ResultEntry :=
  let votesCount := votesForCandidate s c.id
  let pollCount := votesForPoll s pollId
  { candidate_id := c.id, candidate_name := c.name,
    candidate_description := c.description,
    votes := votesCount,
    percentage :=
      if pollCount > 0 then
        pyRound2 ((votesCount : ℚ) / (pollCount : ℚ) * 100)
      else 0 }

/-- Response of `GET /polls/{poll_id}/results` (`main.py` lines
456-462). -/
structure PollResults where
  poll_id : Nat
  poll_title : String
  total_votes : Nat
  unique_voters : Nat
  results : List ResultEntry
deriving Repr, DecidableEq, Inhabited

/-- Handler `get_poll_results` (`main.py` lines 430-465): per-candidate
entries in `poll.candidates` order, `total_votes` accumulated over
that loop, the list then sorted by votes descending, and
`unique_voters` a fresh count of the poll's vote rows. -/
def getPollResults (s : Store) (pollId : Nat) : Option PollResults :=
  (s.findPoll pollId).map fun poll =>
    let entries := (pollCandidates s poll.id).map (resultEntryFor s poll.id)
    { poll_id := poll.id, poll_title := poll.title,
      total_votes := (entries.map (fun r => r.votes)).sum,
      unique_voters := votesForPoll s poll.id,
      results := sortDescByVotes entries }

/-- Backref `election.polls`: the poll rows of the election, in table
order. -/
def electionPolls (s : Store) (electionId : Nat) : List Poll :=
  s.polls.filter (fun p => p.electionId == electionId)

/-- Per-poll breakdown entry of `get_election_stats` (`main.py` lines
483-488). -/
structure PollStat where
  poll_id : Nat
  poll_title : String
  votes_count : Nat
  candidates_count : Nat
deriving Repr, DecidableEq, Inhabited

/-- Response of `GET /elections/{election_id}/stats` (`main.py` lines
490-497). -/
structure ElectionStats where
  election_id : Nat
  election_title : String
  total_polls : Nat
  total_votes : Nat
  total_unique_voters : Nat
  polls : List PollStat
deriving Repr, DecidableEq, Inhabited

/-- Handler `get_election_stats` (`main.py` lines 467-500): `total_votes`
accumulates per-poll counts over the loop; `total_unique_voters` is
`Vote.select().where(Vote.poll.in_(election.polls)).count()` (line
476), i.e. a per-row count of votes whose poll belongs to the
election. -/
def getElectionStats (s : Store) (electionId : Nat) :
    Option ElectionStats :=
  (s.findElection electionId).map fun election =>
    let polls := electionPolls s election.id
    { election_id := election.id, election_title := election.title,
      total_polls := polls.length,
      total_votes := (polls.map (fun p => votesForPoll s p.id)).sum,
      total_unique_voters :=
        (s.votes.filter
          (fun v => polls.any (fun p => p.id == v.pollId))).length,
      polls := polls.map (fun p =>
        { poll_id := p.id, poll_title := p.title,
          votes_count := votesForPoll s p.id,
          candidates_count := (pollCandidates s p.id).length }) }

/-! ## Election write endpoints -/

/-- Request body of `POST /elections/` and `PUT /elections/{id}`
(`schemas.py`, `ElectionCreate`). -/
structure ElectionCreate where
  title : String
  startDate : Int
  endDate : Int
  isActive : Bool
deriving Repr, DecidableEq

/-- Fresh election id for an insert. -/
def nextElectionId (s : Store) : Nat :=
  (s.elections.map (fun e => e.id)).foldr max 0 + 1

/-- Handler `create_election` (`main.py` lines 54-66): requests with
`start_date >= end_date` are rejected with a 400 before anything is
written; otherwise the row is inserted. -/
def createElection (s : Store) (req : ElectionCreate) :
    Except Unit (Store × Election) :=
  if req.startDate ≥ req.endDate then .error ()
  else
    let e : Election :=
      { id := nextElectionId s, title := req.title,
        startDate := req.startDate, endDate := req.endDate,
        isActive := req.isActive }
    .ok ({ s with elections := s.elections ++ [e] }, e)

/-- Error responses of `update_election`. -/
inductive UpdateElectionError where
  | notFound
  | badDates
deriving Repr, DecidableEq

/-- Handler `update_election` (`main.py` lines 111-131): 404 when the election
is absent, 400 when `start_date >= end_date` (checked before any
field is assigned), otherwise all fields are overwritten and saved. -/
def updateElection (s : Store) (electionId : Nat)
    (req : ElectionCreate) : Except UpdateElectionError Store :=
  match s.findElection electionId with
  | none => .error .notFound
  | some _ =>
    if req.startDate ≥ req.endDate then .error .badDates
    else
      let overwrite : Election → Election := fun e =>
        if e.id == electionId then
          { e with title := req.title, startDate := req.startDate,
                   endDate := req.endDate, isActive := req.isActive }
        else e
      .ok { s with elections := s.elections.map overwrite }

/-! ## Store well-formedness

Conditions the storage layer itself guarantees (primary keys are
unique, foreign keys resolve — SQLite runs with `foreign_keys: 1`,
`models.py` line 8) together with the admission invariant that every
vote's candidate belongs to the vote's poll (`main.py` line 370). -/

/-- Primary-key uniqueness for the tables the tally claims read. -/
def Store.idsNodup (s : Store) : Prop :=
  (s.candidates.map (fun c => c.id)).Nodup ∧
  (s.polls.map (fun p => p.id)).Nodup

/-- Every vote's candidate exists and belongs to the vote's poll: the
referential guarantee of the store plus the check at `main.py` line
370, which together force `candidate.poll_id == vote.poll_id` on every
committed row. -/
def Store.votesConsistent (s : Store) : Prop :=
  ∀ v ∈ s.votes, ∃ c ∈ s.candidates,
    c.id = v.candidateId ∧ c.pollId = v.pollId

/-- Well-formedness assumed by the tally claims. -/
def Store.wf (s : Store) : Prop :=
  s.idsNodup ∧ s.votesConsistent

instance (s : Store) : Decidable s.idsNodup := by
  unfold Store.idsNodup; infer_instance

instance (s : Store) : Decidable s.votesConsistent := by
  unfold Store.votesConsistent
  exact List.decidableBAll _ s.votes

instance (s : Store) : Decidable s.wf := by
  unfold Store.wf; infer_instance

/-- Foreign keys the admission path dereferences lazily: every poll's
election and every candidate's poll resolve (SQLite enforces this with
`foreign_keys: 1`). -/
def Store.fkAdmit (s : Store) : Prop :=
  (∀ p ∈ s.polls, (s.findElection p.electionId).isSome) ∧
  (∀ c ∈ s.candidates, (s.findPoll c.pollId).isSome)

instance (s : Store) : Decidable s.fkAdmit := by
  unfold Store.fkAdmit
  exact instDecidableAnd

/-! ## Spec-side definitions

These two definitions are written from the specification's words, not
from the source; they exist to be compared against the source-derived
definitions above. -/

/-- The error kind of `createVote`, `none` on success or on an
unhandled exception. -/
def errorOf : AdmitResult → Option ErrKind
  | .err k => some k
  | _ => none

/-- Written from the claim's words: checks run in the fixed order
poll-exists, candidate-exists, voter-exists, candidate-belongs-to-poll,
no-prior-vote, poll-active, voter-verified, election-window, and the
first failing check names the error kind.  (The election-window check
presumes the poll's election exists; an absent election is outside the
claim and this definition returns `none` there.) -/
def specAdmitError (s : Store) (now : Int) (req : VoteCreate) :
    Option ErrKind :=
  match s.findPoll req.poll_id with
  | none => some .notFoundPoll
  | some poll =>
    match s.findCandidate req.candidate_id with
    | none => some .notFoundCandidate
    | some candidate =>
      match s.findVoter req.voter_id with
      | none => some .notFoundVoter
      | some voter =>
        if candidate.pollId ≠ poll.id then some .invalidReference
        else if s.hasVote poll.id voter.id then some .conflict
        else if !poll.isActive then some .invalidStatePoll
        else if !voter.isVerified then some .invalidStateVoter
        else
          match s.findElection poll.electionId with
          | none => none
          | some election =>
            if now < election.startDate ∨ now > election.endDate then
              some .invalidStateWindow
            else none

/-- Written from the claim's words: `round(x, 2)` with halves rounded
away from zero. -/
def roundHalfAwayFromZero2 (x : ℚ) : ℚ :=
  if 0 ≤ x then (⌊x * 100 + 1/2⌋ : ℚ) / 100
  else -((⌊-x * 100 + 1/2⌋ : ℚ) / 100)

/-! ## Concrete scenario stores

A minimal valid store used by the witnesses: election 1 with voting
window `[0, 10]`, active poll 1 under it, candidates 1 and 2 in poll
1, verified voters 1 and 2, no votes yet. -/

/-- Base election row for the scenarios. -/
def election1 : Election :=
  { id := 1, title := "E", startDate := 0, endDate := 10,
    isActive := true }

/-- Base poll row for the scenarios. -/
def poll1 : Poll :=
  { id := 1, electionId := 1, title := "P", maxVotesPerVoter := 1,
    isActive := true }

/-- Base candidate rows for the scenarios. -/
def candidate1 : Candidate :=
  { id := 1, pollId := 1, name := "C1", description := none }

/-- Second candidate of poll 1. -/
def candidate2 : Candidate :=
  { id := 2, pollId := 1, name := "C2", description := none }

/-- Base voter rows for the scenarios. -/
def voter1 : Voter :=
  { id := 1, email := "v1@x", name := "V1", isVerified := true }

/-- Second verified voter. -/
def voter2 : Voter :=
  { id := 2, email := "v2@x", name := "V2", isVerified := true }

/-- The base scenario store: no votes cast yet. -/
def baseStore : Store :=
  { elections := [election1], polls := [poll1],
    candidates := [candidate1, candidate2],
    voters := [voter1, voter2], votes := [] }

/-- Write a new value into `max_votes_per_voter` of the poll with the
given id, leaving every other column and table untouched. -/
def Store.setMaxVotes (s : Store) (pid : Nat) (m : Int) : Store :=
  { s with polls := s.polls.map (fun p =>
      if p.id == pid then { p with maxVotesPerVoter := m } else p) }

/-- C5 counterexample input: poll 1 carries 32 votes, one for
candidate 1 and 31 for candidate 2, so candidate 1's exact share is
1/32 * 100 = 3.125 — a value the float pipeline computes exactly
(1/32 and 3.125 are dyadic rationals). -/
def cexVotes : List Vote :=
  { id := 1, pollId := 1, candidateId := 1, voterId := 100,
    votedAt := 0 } ::
  (List.range 31).map (fun i =>
    { id := i + 2, pollId := 1, candidateId := 2, voterId := i + 1,
      votedAt := 0 })

/-- Store for the C5 counterexample. -/
def cexStore : Store :=
  { elections := [election1], polls := [poll1],
    candidates := [candidate1, candidate2],
    voters := [voter1, voter2], votes := cexVotes }

/-- The full response the code computes on `cexStore`: Python rounds
the exact tie 3.125 to the even hundredth, reporting 3.12 for
candidate 1. -/
def cexResults : PollResults :=
  { poll_id := 1, poll_title := "P", total_votes := 32,
    unique_voters := 32,
    results := [
      { candidate_id := 2, candidate_name := "C2",
        candidate_description := none, votes := 31,
        percentage := 2422/25 },
      { candidate_id := 1, candidate_name := "C1",
        candidate_description := none, votes := 1,
        percentage := 78/25 } ] }

lemma sum_map_zero {α : Type} (l : List α) :
    (l.map fun _ => (0 : Nat)).sum = 0 := by
  induction l with
  | nil => rfl
  | cons x xs ih => simp [ih]

lemma sum_map_add {α : Type} (l : List α) (f g : α → Nat) :
    (l.map fun x => f x + g x).sum = (l.map f).sum + (l.map g).sum := by
  induction l with
  | nil => rfl
  | cons x xs ih => simp [ih]; omega

lemma indicator_sum_not_mem (keys : List Nat) (n : Nat)
    (h : n ∉ keys) :
    (keys.map fun k => if n == k then 1 else 0).sum = 0 := by
  induction keys with
  | nil => rfl
  | cons k ks ih =>
    simp only [List.mem_cons, not_or] at h
    have h1 : (n == k) = false := by simp [h.1]
    rw [List.map_cons, List.sum_cons, h1, if_neg Bool.false_ne_true,
      Nat.zero_add, ih h.2]

lemma indicator_sum (keys : List Nat) (hk : keys.Nodup) (n : Nat) :
    (keys.map fun k => if n == k then 1 else 0).sum
      = if keys.contains n then 1 else 0 := by
  induction keys with
  | nil => rfl
  | cons k ks ih =>
    rcases List.nodup_cons.mp hk with ⟨hkmem, hnd⟩
    by_cases hk' : n = k
    · subst hk'
      simp only [List.map_cons, List.sum_cons, List.contains_cons]
      rw [indicator_sum_not_mem ks n hkmem]
      simp
    · have h1 : (n == k) = false := by simp [hk']
      have h2 : (k == n) = false := by simp [Ne.symm hk']
      simp only [List.map_cons, List.sum_cons, h1, List.contains_cons, h2]
      rw [ih hnd]
      simp

lemma sum_count_eq {α : Type} (keys : List Nat) (hk : keys.Nodup)
    (xs : List α) (f : α → Nat) :
    (keys.map fun k => (xs.filter fun x => f x == k).length).sum
      = (xs.filter fun x => keys.contains (f x)).length := by
  induction xs with
  | nil => simp [sum_map_zero]
  | cons x xs ih =>
    have hstep : (keys.map fun k =>
        ((x :: xs).filter fun y => f y == k).length)
        = keys.map fun k =>
          (if f x == k then 1 else 0) + ((xs.filter fun y => f y == k).length) := by
      apply List.map_congr_left
      intro k _
      by_cases h : f x = k <;> (simp [List.filter_cons, h]; try omega)
    rw [hstep, sum_map_add, indicator_sum keys hk (f x), ih, List.filter_cons]
    by_cases h : keys.contains (f x) = true
    · rw [if_pos h, if_pos h, List.length_cons]; omega
    · rw [if_neg h, if_neg h]; omega

lemma insertDesc_map_sum (f : ResultEntry → Nat) (r : ResultEntry)
    (l : List ResultEntry) :
    ((insertDescByVotes r l).map f).sum = f r + (l.map f).sum := by
  induction l with
  | nil => simp [insertDescByVotes]
  | cons x xs ih =>
    by_cases h : x.votes > r.votes
    · simp [insertDescByVotes, h, ih]; omega
    · simp [insertDescByVotes, h]

lemma sortDesc_map_sum (f : ResultEntry → Nat) (l : List ResultEntry) :
    ((sortDescByVotes l).map f).sum = (l.map f).sum := by
  induction l with
  | nil => rfl
  | cons x xs ih => simp [sortDescByVotes, insertDesc_map_sum, ih]

lemma insertDesc_mem (r a : ResultEntry) (l : List ResultEntry) :
    a ∈ insertDescByVotes r l ↔ a = r ∨ a ∈ l := by
  induction l with
  | nil => simp [insertDescByVotes]
  | cons x xs ih =>
    by_cases h : x.votes > r.votes
    · simp only [insertDescByVotes, if_pos h, List.mem_cons, ih]
      tauto
    · simp only [insertDescByVotes, if_neg h, List.mem_cons]

lemma sortDesc_mem (a : ResultEntry) (l : List ResultEntry) :
    a ∈ sortDescByVotes l ↔ a ∈ l := by
  induction l with
  | nil => simp [sortDescByVotes]
  | cons x xs ih => simp [sortDescByVotes, insertDesc_mem, ih]

lemma insertDesc_filter_votes (v : Nat) (r : ResultEntry)
    (l : List ResultEntry) :
    (insertDescByVotes r l).filter (fun e => e.votes == v)
      = if r.votes == v then r :: l.filter (fun e => e.votes == v)
        else l.filter (fun e => e.votes == v) := by
  induction l with
  | nil => simp [insertDescByVotes, List.filter_cons]
  | cons x xs ih =>
    by_cases h : x.votes > r.votes
    · by_cases hrv : r.votes = v
      · have hxv : (x.votes == v) = false := by
          simp only [beq_eq_false_iff_ne]
          omega
        have hrv' : (r.votes == v) = true := by simp [hrv]
        simp [insertDescByVotes, h, List.filter_cons, hxv, ih, hrv']
      · have hrv' : (r.votes == v) = false := by simp [hrv]
        simp [insertDescByVotes, h, List.filter_cons, ih, hrv']
    · simp only [insertDescByVotes, if_neg h, List.filter_cons]

lemma sortDesc_filter_votes (v : Nat) (l : List ResultEntry) :
    (sortDescByVotes l).filter (fun e => e.votes == v)
      = l.filter (fun e => e.votes == v) := by
  induction l with
  | nil => rfl
  | cons x xs ih =>
    simp only [sortDescByVotes]
    rw [insertDesc_filter_votes, List.filter_cons, ih]

lemma findPoll_id {s : Store} {pid : Nat} {p : Poll}
    (h : s.findPoll pid = some p) : p.id = pid := by
  unfold Store.findPoll at h
  simpa using List.find?_some h

lemma findVoter_id {s : Store} {vid : Nat} {v : Voter}
    (h : s.findVoter vid = some v) : v.id = vid := by
  unfold Store.findVoter at h
  simpa using List.find?_some h

lemma findElection_id {s : Store} {eid : Nat} {e : Election}
    (h : s.findElection eid = some e) : e.id = eid := by
  unfold Store.findElection at h
  simpa using List.find?_some h

lemma findCandidate_mem {s : Store} {cid : Nat} {c : Candidate}
    (h : s.findCandidate cid = some c) : c ∈ s.candidates := by
  unfold Store.findCandidate at h
  exact List.mem_of_find?_eq_some h

lemma admitChecks_pass_inv {s : Store} {now : Int} {req : VoteCreate}
    (h : admitChecks s now req = .pass) :
    ∃ poll voter, s.findPoll req.poll_id = some poll ∧
      s.findVoter req.voter_id = some voter ∧
      s.hasVote poll.id voter.id = false := by
  unfold admitChecks at h
  rcases hp : s.findPoll req.poll_id with _ | poll
  · rw [hp] at h; simp at h
  simp only [hp] at h
  rcases hc : s.findCandidate req.candidate_id with _ | cand
  · rw [hc] at h; simp at h
  simp only [hc] at h
  rcases hv : s.findVoter req.voter_id with _ | voter
  · rw [hv] at h; simp at h
  simp only [hv] at h
  rcases hcp : s.findPoll cand.pollId with _ | cpoll
  · rw [hcp] at h; simp at h
  simp only [hcp] at h
  refine ⟨poll, voter, rfl, rfl, ?_⟩
  by_cases hbel : cpoll.id ≠ poll.id
  · simp [hbel] at h
  rcases hprior : s.hasVote poll.id voter.id
  · rfl
  · simp [hbel, hprior] at h

lemma createVote_ok_inv {s : Store} {now : Int} {req : VoteCreate} {v : Vote}
    (h : createVote s now req = .ok v) :
    v = mkVote s now req ∧ admitChecks s now req = .pass := by
  unfold createVote createVoteRaced at h
  rcases hch : admitChecks s now req with _ | k | _
  · simp only [hch] at h
    rcases hins : storeInsertVote s (mkVote s now req) with _ | s'
    · rw [hins] at h; simp at h
    simp only [hins] at h
    injection h with h
    exact ⟨h.symm, rfl⟩
  · rw [hch] at h; simp at h
  · rw [hch] at h; simp at h

lemma findPoll_mem {s : Store} {pid : Nat} {p : Poll}
    (h : s.findPoll pid = some p) : p ∈ s.polls := by
  unfold Store.findPoll at h
  exact List.mem_of_find?_eq_some h

/-- C1 (amended): when the pre-insert checks pass against the state
the handler read but the store at insert time already holds a vote for
the same `(poll_id, voter_id)` pair, the unique-constraint violation
is not translated to the Conflict kind: no `except` clause of
`create_vote` matches an `IntegrityError`, so the request fails
unclassified. -/
theorem insert_conflict_unhandled (sCheck sInsert : Store) (now : Int)
    (req : VoteCreate)
    (hpass : admitChecks sCheck now req = .pass)
    (hconf : sInsert.hasVote req.poll_id req.voter_id = true) :
    createVoteRaced sCheck sInsert now req = .unhandled := by
  unfold createVoteRaced
  rw [hpass]
  simp [storeInsertVote, mkVote, hconf]

/-- C1 counterexample input: a second copy of the base scenario store
in which voter 1's vote is already committed. -/
theorem insert_conflict_cex :
    createVoteRaced baseStore (createVoteStore baseStore 5 ⟨1, 1, 1⟩) 5
        ⟨1, 1, 1⟩ = .unhandled
    ∧ createVoteRaced baseStore (createVoteStore baseStore 5 ⟨1, 1, 1⟩) 5
        ⟨1, 1, 1⟩ ≠ .err .conflict := by
  decide

theorem insert_conflict_unhandled_witness :
    admitChecks baseStore 5 ⟨1, 1, 1⟩ = .pass
    ∧ (createVoteStore baseStore 5 ⟨1, 1, 1⟩).hasVote 1 1 = true
    ∧ createVoteRaced baseStore (createVoteStore baseStore 5 ⟨1, 1, 1⟩) 5
        ⟨1, 1, 1⟩ = .unhandled :=
  ⟨by decide, by decide,
    insert_conflict_unhandled baseStore
      (createVoteStore baseStore 5 ⟨1, 1, 1⟩) 5 ⟨1, 1, 1⟩
      (by decide) (by decide)⟩

/-- C3: with every earlier check passing, admission fails with the
window error exactly when `now` is strictly before the start or
strictly after the end, and succeeds at both boundary instants. -/
theorem vote_window_boundaries (s : Store) (now : Int) (req : VoteCreate)
    (poll : Poll) (cand : Candidate) (voter : Voter) (elec : Election)
    (hp : s.findPoll req.poll_id = some poll)
    (hc : s.findCandidate req.candidate_id = some cand)
    (hv : s.findVoter req.voter_id = some voter)
    (hbelong : cand.pollId = req.poll_id)
    (hprior : s.hasVote poll.id voter.id = false)
    (hactive : poll.isActive = true)
    (hverified : voter.isVerified = true)
    (he : s.findElection poll.electionId = some elec) :
    ((now < elec.startDate ∨ now > elec.endDate) →
      createVote s now req = .err .invalidStateWindow)
    ∧ (elec.startDate ≤ now → now ≤ elec.endDate →
      createVote s now req = .ok (mkVote s now req)) := by
  have hpid : poll.id = req.poll_id := findPoll_id hp
  have hvid : voter.id = req.voter_id := findVoter_id hv
  have hcp : s.findPoll cand.pollId = some poll := by rw [hbelong]; exact hp
  unfold createVote createVoteRaced admitChecks
  simp only [hp, hc, hv, hcp, he]
  constructor
  · intro hwin
    simp [hprior, hactive, hverified, hwin]
  · intro h1 h2
    have hwin : ¬(now < elec.startDate ∨ now > elec.endDate) := by omega
    have hins : s.hasVote req.poll_id req.voter_id = false := by
      rw [← hpid, ← hvid]; exact hprior
    simp [hprior, hactive, hverified, hwin, storeInsertVote, mkVote, hins]

theorem vote_window_boundaries_witness :
    createVote baseStore 0 ⟨1, 1, 1⟩ = .ok (mkVote baseStore 0 ⟨1, 1, 1⟩)
    ∧ createVote baseStore 10 ⟨1, 1, 1⟩ = .ok (mkVote baseStore 10 ⟨1, 1, 1⟩)
    ∧ createVote baseStore 11 ⟨1, 1, 1⟩ = .err .invalidStateWindow :=
  ⟨(vote_window_boundaries baseStore 0 ⟨1, 1, 1⟩ poll1 candidate1 voter1
      election1 (by decide) (by decide) (by decide) (by decide) (by decide)
      (by decide) (by decide) (by decide)).2 (by decide) (by decide),
   (vote_window_boundaries baseStore 10 ⟨1, 1, 1⟩ poll1 candidate1 voter1
      election1 (by decide) (by decide) (by decide) (by decide) (by decide)
      (by decide) (by decide) (by decide)).2 (by decide) (by decide),
   (vote_window_boundaries baseStore 11 ⟨1, 1, 1⟩ poll1 candidate1 voter1
      election1 (by decide) (by decide) (by decide) (by decide) (by decide)
      (by decide) (by decide) (by decide)).1 (by decide)⟩

lemma findElection_of_poll {s : Store} (hfk : s.fkAdmit) {pid : Nat}
    {p : Poll} (hp : s.findPoll pid = some p) :
    ∃ e, s.findElection p.electionId = some e := by
  have := hfk.1 p (findPoll_mem hp)
  rcases he : s.findElection p.electionId with _ | e
  · rw [he] at this; simp at this
  · exact ⟨e, rfl⟩

/-- C2: with resolvable foreign keys, the error kind `create_vote`
returns is exactly the one named by the first failing check of the
spec's fixed sequence. -/
theorem first_failing_check_wins (s : Store) (now : Int) (req : VoteCreate)
    (hfk : s.fkAdmit) :
    errorOf (createVote s now req) = specAdmitError s now req := by
  unfold createVote createVoteRaced admitChecks specAdmitError
  rcases hp : s.findPoll req.poll_id with _ | poll
  · simp [errorOf]
  rcases hc : s.findCandidate req.candidate_id with _ | cand
  · simp [errorOf]
  rcases hv : s.findVoter req.voter_id with _ | voter
  · simp [errorOf]
  obtain ⟨cpoll, hcp⟩ : ∃ q, s.findPoll cand.pollId = some q := by
    have := hfk.2 cand (findCandidate_mem hc)
    rcases hq : s.findPoll cand.pollId with _ | q
    · rw [hq] at this; simp at this
    · exact ⟨q, rfl⟩
  have hcpid : cpoll.id = cand.pollId := findPoll_id hcp
  simp only [hp, hc, hv, hcp]
  by_cases hbel : cand.pollId = poll.id
  · by_cases hprior : s.hasVote poll.id voter.id = true
    · simp [errorOf, hcpid, hbel, hprior]
    · by_cases hact : poll.isActive = true
      · by_cases hver : voter.isVerified = true
        · obtain ⟨elec, he⟩ := findElection_of_poll ⟨hfk.1, hfk.2⟩ hp
          simp only [he]
          by_cases hwin : now < elec.startDate ∨ now > elec.endDate
          · simp [errorOf, hcpid, hbel, hprior, hact, hver, hwin]
          · rcases hins : storeInsertVote s (mkVote s now req) with _ | s2 <;>
              simp [errorOf, hcpid, hbel, hprior, hact, hver, hwin, hins]
        · simp [errorOf, hcpid, hbel, hprior, hact, hver]
      · simp [errorOf, hcpid, hbel, hprior, hact]
  · simp [errorOf, hcpid, hbel]

theorem first_failing_check_wins_witness :
    Store.fkAdmit baseStore
    ∧ errorOf (createVote baseStore 11 ⟨1, 1, 1⟩)
        = specAdmitError baseStore 11 ⟨1, 1, 1⟩ :=
  ⟨by decide, first_failing_check_wins baseStore 11 ⟨1, 1, 1⟩ (by decide)⟩

lemma findPoll_poll_map (s : Store) (g : Poll → Poll)
    (hid : ∀ p, (g p).id = p.id) (qid : Nat) :
    Store.findPoll { s with polls := s.polls.map g } qid
      = (s.findPoll qid).map g := by
  unfold Store.findPoll
  show (s.polls.map g).find? (fun p => p.id == qid) = _
  rw [List.find?_map]
  have heq : ((fun p => p.id == qid) ∘ g) = fun p : Poll => p.id == qid := by
    funext p
    simp [Function.comp, hid]
  rw [heq]

lemma admitChecks_poll_map (s : Store) (g : Poll → Poll) (now : Int)
    (req : VoteCreate)
    (hid : ∀ p, (g p).id = p.id)
    (hact : ∀ p, (g p).isActive = p.isActive)
    (hel : ∀ p, (g p).electionId = p.electionId) :
    admitChecks { s with polls := s.polls.map g } now req
      = admitChecks s now req := by
  have hfc : ∀ cid, Store.findCandidate { s with polls := s.polls.map g } cid
      = s.findCandidate cid := fun _ => rfl
  have hfv : ∀ vid, Store.findVoter { s with polls := s.polls.map g } vid
      = s.findVoter vid := fun _ => rfl
  have hfe : ∀ eid, Store.findElection { s with polls := s.polls.map g } eid
      = s.findElection eid := fun _ => rfl
  have hhv : ∀ a b, Store.hasVote { s with polls := s.polls.map g } a b
      = s.hasVote a b := fun _ _ => rfl
  unfold admitChecks
  simp only [findPoll_poll_map s g hid, hfc, hfv, hfe, hhv]
  rcases hp : s.findPoll req.poll_id with _ | poll <;>
    simp only [hp, Option.map_none', Option.map_some']
  rcases hc : s.findCandidate req.candidate_id with _ | cand <;>
    simp only [hc]
  rcases hv : s.findVoter req.voter_id with _ | voter <;>
    simp only [hv]
  rcases hcp : s.findPoll cand.pollId with _ | cpoll <;>
    simp only [hcp, Option.map_none', Option.map_some']
  simp only [hid, hact, hel]

lemma createVote_poll_map (s : Store) (g : Poll → Poll) (now : Int)
    (req : VoteCreate)
    (hid : ∀ p, (g p).id = p.id)
    (hact : ∀ p, (g p).isActive = p.isActive)
    (hel : ∀ p, (g p).electionId = p.electionId) :
    createVote { s with polls := s.polls.map g } now req
      = createVote s now req := by
  unfold createVote createVoteRaced
  rw [admitChecks_poll_map s g now req hid hact hel]
  rcases hch : admitChecks s now req with _ | k | _ <;> simp only [hch]
  · have h1 : mkVote { s with polls := s.polls.map g } now req
        = mkVote s now req := rfl
    rw [h1]
    unfold storeInsertVote
    have h3 : Store.hasVote { s with polls := s.polls.map g }
        (mkVote s now req).pollId (mkVote s now req).voterId
        = s.hasVote (mkVote s now req).pollId (mkVote s now req).voterId :=
      rfl
    rw [h3]
    by_cases hv : s.hasVote (mkVote s now req).pollId
        (mkVote s now req).voterId = true
    · simp [hv]
    · simp [hv]

/-- C8: admission never reads `max_votes_per_voter` (changing it
changes no outcome), and once a voter's vote is committed in a poll, a
second admission for the same `(poll, voter)` pair — whatever existing
candidate of the poll it names — returns Conflict. -/
theorem max_votes_per_voter_ignored (s : Store) (now now2 : Int)
    (req req2 : VoteCreate) (v : Vote) (pid : Nat) (m : Int)
    (cand2 : Candidate) :
    createVote (s.setMaxVotes pid m) now req = createVote s now req
    ∧ (createVote s now req = .ok v →
       req2.poll_id = req.poll_id → req2.voter_id = req.voter_id →
       s.findCandidate req2.candidate_id = some cand2 →
       cand2.pollId = req.poll_id →
       createVote (createVoteStore s now req) now2 req2 = .err .conflict) := by
  constructor
  · apply createVote_poll_map
    · intro p; by_cases h : (p.id == pid) = true <;> simp [Store.setMaxVotes, h]
    · intro p; by_cases h : (p.id == pid) = true <;> simp [h]
    · intro p; by_cases h : (p.id == pid) = true <;> simp [h]
  · intro hok h2p h2v hc2 hbel2
    obtain ⟨hveq, hpass⟩ := createVote_ok_inv hok
    obtain ⟨poll, voter, hp, hv, _⟩ := admitChecks_pass_inv hpass
    have hpid : poll.id = req.poll_id := findPoll_id hp
    have hvid : voter.id = req.voter_id := findVoter_id hv
    have hstore : createVoteStore s now req
        = { s with votes := s.votes ++ [mkVote s now req] } := by
      unfold createVoteStore
      simp only [hok]
      rw [hveq]
    rw [hstore]
    have hp2 : Store.findPoll { s with votes := s.votes ++ [mkVote s now req] }
        req2.poll_id = some poll := by rw [h2p]; exact hp
    have hc2' : Store.findCandidate
        { s with votes := s.votes ++ [mkVote s now req] } req2.candidate_id
        = some cand2 := hc2
    have hv2 : Store.findVoter { s with votes := s.votes ++ [mkVote s now req] }
        req2.voter_id = some voter := by rw [h2v]; exact hv
    have hcp2 : Store.findPoll { s with votes := s.votes ++ [mkVote s now req] }
        cand2.pollId = some poll := by rw [hbel2, ← h2p]; exact hp2
    have hconf : Store.hasVote { s with votes := s.votes ++ [mkVote s now req] }
        poll.id voter.id = true := by
      simp [Store.hasVote, List.any_append, mkVote, hpid, hvid]
    unfold createVote createVoteRaced admitChecks
    simp only [hp2, hc2', hv2, hcp2]
    simp [hconf]

theorem max_votes_per_voter_ignored_witness :
    createVote (baseStore.setMaxVotes 1 99) 5 ⟨1, 1, 1⟩
      = createVote baseStore 5 ⟨1, 1, 1⟩
    ∧ createVote (createVoteStore baseStore 5 ⟨1, 1, 1⟩) 5 ⟨1, 2, 1⟩
      = .err .conflict :=
  ⟨(max_votes_per_voter_ignored baseStore 5 5 ⟨1, 1, 1⟩ ⟨1, 2, 1⟩
      (mkVote baseStore 5 ⟨1, 1, 1⟩) 1 99 candidate2).1,
   (max_votes_per_voter_ignored baseStore 5 5 ⟨1, 1, 1⟩ ⟨1, 2, 1⟩
      (mkVote baseStore 5 ⟨1, 1, 1⟩) 1 99 candidate2).2
     (by decide) rfl rfl (by decide) (by decide)⟩

lemma contains_iff_mem {keys : List Nat} {n : Nat} :
    keys.contains n = true ↔ n ∈ keys := by
  simp [List.contains, List.elem_iff]

lemma pollCandidates_ids_nodup {s : Store} (hwf : s.wf) (pid : Nat) :
    ((pollCandidates s pid).map (fun c => c.id)).Nodup := by
  have hs : ((pollCandidates s pid).map (fun c => c.id)).Sublist
      (s.candidates.map (fun c => c.id)) :=
    (List.filter_sublist s.candidates).map _
  exact hwf.1.1.sublist hs

lemma electionPolls_ids_nodup {s : Store} (hwf : s.wf) (eid : Nat) :
    ((electionPolls s eid).map (fun p => p.id)).Nodup := by
  have hs : ((electionPolls s eid).map (fun p => p.id)).Sublist
      (s.polls.map (fun p => p.id)) :=
    (List.filter_sublist s.polls).map _
  exact hwf.1.2.sublist hs

lemma votes_filter_candidates_eq {s : Store} (hwf : s.wf) (pid : Nat) :
    s.votes.filter (fun v =>
        ((pollCandidates s pid).map (fun c => c.id)).contains v.candidateId)
      = s.votes.filter (fun v => v.pollId == pid) := by
  apply List.filter_congr
  intro v hvmem
  obtain ⟨c, hcmem, hcid, hcpoll⟩ := hwf.2 v hvmem
  by_cases h : v.pollId = pid
  · have hcin : c ∈ pollCandidates s pid := by
      unfold pollCandidates
      exact List.mem_filter.mpr ⟨hcmem, by simp [hcpoll, h]⟩
    have h1 : ((pollCandidates s pid).map (fun c => c.id)).contains
        v.candidateId = true := by
      rw [contains_iff_mem]
      exact List.mem_map.mpr ⟨c, hcin, hcid⟩
    rw [h1]
    simp [h]
  · have h1 : ((pollCandidates s pid).map (fun c => c.id)).contains
        v.candidateId = false := by
      rw [Bool.eq_false_iff]
      intro hcon
      obtain ⟨c2, hc2in, hc2id⟩ := List.mem_map.mp (contains_iff_mem.mp hcon)
      have hc2mem : c2 ∈ s.candidates := List.mem_of_mem_filter hc2in
      have hc2poll : (c2.pollId == pid) = true :=
        (List.mem_filter.mp hc2in).2
      have hceq : c2 = c :=
        List.inj_on_of_nodup_map hwf.1.1 hc2mem hcmem (hc2id.trans hcid.symm)
      apply h
      rw [← hcpoll, ← hceq]
      exact beq_iff_eq.mp hc2poll
    rw [h1]
    simp [h]

lemma sum_votesForCandidate {s : Store} (hwf : s.wf) (pid : Nat) :
    ((pollCandidates s pid).map (fun c => votesForCandidate s c.id)).sum
      = votesForPoll s pid := by
  unfold votesForCandidate votesForPoll
  have h1 : (pollCandidates s pid).map
        (fun c => (s.votes.filter fun v => v.candidateId == c.id).length)
      = ((pollCandidates s pid).map (fun c => c.id)).map
        (fun k => (s.votes.filter fun v => v.candidateId == k).length) := by
    rw [List.map_map]
    rfl
  rw [h1,
    sum_count_eq _ (pollCandidates_ids_nodup hwf pid) s.votes
      (fun v => v.candidateId),
    votes_filter_candidates_eq hwf pid]

lemma entries_votes_sum {s : Store} (hwf : s.wf) (pid : Nat) :
    (((pollCandidates s pid).map (resultEntryFor s pid)).map
        (fun e => e.votes)).sum = votesForPoll s pid := by
  rw [List.map_map]
  show ((pollCandidates s pid).map (fun c => votesForCandidate s c.id)).sum = _
  exact sum_votesForCandidate hwf pid

/-- C4: the reported total equals the sum of the per-candidate vote
counts in the results list, and `unique_voters` equals that total. -/
theorem poll_results_totals (s : Store) (hwf : s.wf) (pid : Nat)
    (res : PollResults) (h : getPollResults s pid = some res) :
    res.total_votes = (res.results.map (fun e => e.votes)).sum
    ∧ res.unique_voters = res.total_votes := by
  unfold getPollResults at h
  rcases hp : s.findPoll pid with _ | poll <;> rw [hp] at h
  · simp at h
  simp only [Option.map_some'] at h
  injection h with h
  subst h
  dsimp only
  constructor
  · rw [sortDesc_map_sum]
  · rw [entries_votes_sum hwf poll.id]

theorem poll_results_totals_witness :
    Store.wf baseStore
    ∧ ((getPollResults baseStore 1).map (fun r =>
        (r.total_votes, r.unique_voters,
          (r.results.map (fun e => e.votes)).sum))) = some (0, 0, 0) := by
  refine ⟨by decide, ?_⟩
  have h := poll_results_totals baseStore (by decide) 1
    ((getPollResults baseStore 1).getD default) (by decide)
  rw [show getPollResults baseStore 1
      = some ((getPollResults baseStore 1).getD default) from by decide]
  simp only [Option.map_some']
  rw [← h.1, ← h.2]
  decide

/-- C10: the descending sort on vote counts is stable — within each
vote-count class the results keep the candidate-table order — so the
output order is a function of the store alone. -/
theorem poll_results_sort_stable (s : Store) (pid : Nat)
    (res : PollResults) (h : getPollResults s pid = some res) (v : Nat) :
    res.results.filter (fun e => e.votes == v)
      = ((pollCandidates s pid).map (resultEntryFor s pid)).filter
          (fun e => e.votes == v) := by
  unfold getPollResults at h
  rcases hp : s.findPoll pid with _ | poll <;> rw [hp] at h
  · simp at h
  simp only [Option.map_some'] at h
  injection h with h
  subst h
  have hid : poll.id = pid := findPoll_id hp
  dsimp only
  rw [hid]
  exact sortDesc_filter_votes v _

lemma insertDesc_eq_cons {r : ResultEntry} {l : List ResultEntry}
    (h : ∀ e ∈ l, ¬(e.votes > r.votes)) : insertDescByVotes r l = r :: l := by
  cases l with
  | nil => rfl
  | cons y ys => simp [insertDescByVotes, h y (List.mem_cons_self y ys)]

lemma sortDesc_eq_self {l : List ResultEntry}
    (h : ∀ e ∈ l, e.votes = 0) : sortDescByVotes l = l := by
  induction l with
  | nil => rfl
  | cons x xs ih =>
    have hxs : ∀ e ∈ xs, e.votes = 0 :=
      fun e he => h e (List.mem_cons_of_mem x he)
    show insertDescByVotes x (sortDescByVotes xs) = x :: xs
    rw [ih hxs]
    apply insertDesc_eq_cons
    intro e he
    rw [h e (List.mem_cons_of_mem x he), h x (List.mem_cons_self x xs)]
    omega

/-- C6: on a poll with no vote rows, the results list every candidate
of the poll with zero votes and zero percentage, and both totals are
zero; the percentage guard avoids any division. -/
theorem poll_results_zero_votes (s : Store) (hwf : s.wf) (pid : Nat)
    (res : PollResults) (h : getPollResults s pid = some res)
    (hz : votesForPoll s pid = 0) :
    res.results.map (fun e => e.candidate_id)
      = (pollCandidates s pid).map (fun c => c.id)
    ∧ (∀ e ∈ res.results, e.votes = 0 ∧ e.percentage = 0)
    ∧ res.total_votes = 0 ∧ res.unique_voters = 0 := by
  unfold getPollResults at h
  rcases hp : s.findPoll pid with _ | poll <;> rw [hp] at h
  · simp at h
  simp only [Option.map_some'] at h
  injection h with h
  subst h
  have hid : poll.id = pid := findPoll_id hp
  have hcand0 : ∀ c ∈ pollCandidates s pid, votesForCandidate s c.id = 0 := by
    have hsum := sum_votesForCandidate hwf pid
    rw [hz] at hsum
    intro c hc
    exact List.sum_eq_zero_iff.mp hsum _ (List.mem_map.mpr ⟨c, hc, rfl⟩)
  have hentries0 : ∀ e ∈ (pollCandidates s poll.id).map
      (resultEntryFor s poll.id), e.votes = 0 := by
    intro e he
    obtain ⟨c, hc, rfl⟩ := List.mem_map.mp he
    show votesForCandidate s c.id = 0
    rw [hid] at hc
    exact hcand0 c hc
  dsimp only
  refine ⟨?_, ?_, ?_, ?_⟩
  · rw [sortDesc_eq_self hentries0, List.map_map, hid]
    rfl
  · intro e he
    rw [sortDesc_eq_self hentries0] at he
    obtain ⟨c, hc, rfl⟩ := List.mem_map.mp he
    constructor
    · exact hentries0 _ (List.mem_map.mpr ⟨c, hc, rfl⟩)
    · show (if votesForPoll s poll.id > 0 then _ else 0) = 0
      rw [hid, hz]
      simp
  · apply List.sum_eq_zero
    intro x hx
    obtain ⟨e, he, rfl⟩ := List.mem_map.mp hx
    exact hentries0 e he
  · rw [hid]
    exact hz

theorem poll_results_zero_votes_witness :
    Store.wf baseStore ∧ votesForPoll baseStore 1 = 0
    ∧ (∀ e ∈ ((getPollResults baseStore 1).getD default).results,
        e.votes = 0 ∧ e.percentage = 0) :=
  ⟨by decide, by decide,
    (poll_results_zero_votes baseStore (by decide) 1
      ((getPollResults baseStore 1).getD default) (by decide)
      (by decide)).2.1⟩

lemma votes_filter_polls_eq (s : Store) (eid : Nat) :
    s.votes.filter (fun v =>
        ((electionPolls s eid).map (fun p => p.id)).contains v.pollId)
      = s.votes.filter (fun v =>
        (electionPolls s eid).any (fun p => p.id == v.pollId)) := by
  apply List.filter_congr
  intro v _
  by_cases h : ∃ p ∈ electionPolls s eid, p.id = v.pollId
  · obtain ⟨p, hp, hpe⟩ := h
    have h1 : ((electionPolls s eid).map (fun p => p.id)).contains
        v.pollId = true :=
      contains_iff_mem.mpr (List.mem_map.mpr ⟨p, hp, hpe⟩)
    have h2 : (electionPolls s eid).any (fun p => p.id == v.pollId) = true :=
      List.any_eq_true.mpr ⟨p, hp, by simp [hpe]⟩
    rw [h1, h2]
  · have h1 : ((electionPolls s eid).map (fun p => p.id)).contains
        v.pollId = false := by
      rw [Bool.eq_false_iff]
      intro hc
      exact h (List.mem_map.mp (contains_iff_mem.mp hc))
    have h2 : (electionPolls s eid).any (fun p => p.id == v.pollId)
        = false := by
      rw [Bool.eq_false_iff]
      intro hc
      obtain ⟨p, hp, hpe⟩ := List.any_eq_true.mp hc
      exact h ⟨p, hp, beq_iff_eq.mp hpe⟩
    rw [h1, h2]

lemma sum_votesForPolls {s : Store} (hwf : s.wf) (eid : Nat) :
    ((electionPolls s eid).map (fun p => votesForPoll s p.id)).sum
      = (s.votes.filter (fun v =>
          (electionPolls s eid).any (fun p => p.id == v.pollId))).length := by
  unfold votesForPoll
  have h1 : (electionPolls s eid).map
        (fun p => (s.votes.filter fun v => v.pollId == p.id).length)
      = ((electionPolls s eid).map (fun p => p.id)).map
        (fun k => (s.votes.filter fun v => v.pollId == k).length) := by
    rw [List.map_map]
    rfl
  rw [h1,
    sum_count_eq _ (electionPolls_ids_nodup hwf eid) s.votes
      (fun v => v.pollId),
    votes_filter_polls_eq s eid]

/-- C7: per-election totals — `total_votes` is the sum of the per-poll
vote counts, and `total_unique_voters` counts vote rows (not distinct
voters), so it always equals `total_votes`. -/
theorem election_stats_totals (s : Store) (hwf : s.wf) (eid : Nat)
    (st : ElectionStats) (h : getElectionStats s eid = some st) :
    st.total_votes
      = ((electionPolls s eid).map (fun p => votesForPoll s p.id)).sum
    ∧ st.total_unique_voters = st.total_votes := by
  unfold getElectionStats at h
  rcases he : s.findElection eid with _ | elec <;> rw [he] at h
  · simp at h
  simp only [Option.map_some'] at h
  injection h with h
  subst h
  have hid : elec.id = eid := findElection_id he
  dsimp only
  rw [hid]
  exact ⟨rfl, (sum_votesForPolls hwf eid).symm⟩

theorem election_stats_totals_witness :
    Store.wf baseStore
    ∧ ((getElectionStats baseStore 1).map (fun t =>
        (t.total_votes, t.total_unique_voters))) = some (0, 0) := by
  refine ⟨by decide, ?_⟩
  have h := election_stats_totals baseStore (by decide) 1
    ((getElectionStats baseStore 1).getD default) (by decide)
  rw [show getElectionStats baseStore 1
      = some ((getElectionStats baseStore 1).getD default) from by decide]
  simp only [Option.map_some']
  rw [h.2, h.1]
  decide

/-- C5 (amended): the percentage is 0 when the poll has no votes and
otherwise `votes / total_votes * 100` rounded to 2 decimals with ties
going to the even hundredth (Python `round` semantics), not away from
zero. -/
theorem poll_results_percentage (s : Store) (hwf : s.wf) (pid : Nat)
    (res : PollResults) (h : getPollResults s pid = some res) :
    ∀ e ∈ res.results,
      e.percentage = if res.total_votes = 0 then 0
        else pyRound2 ((e.votes : ℚ) / (res.total_votes : ℚ) * 100) := by
  unfold getPollResults at h
  rcases hp : s.findPoll pid with _ | poll <;> rw [hp] at h
  · simp at h
  simp only [Option.map_some'] at h
  injection h with h
  subst h
  intro e he
  dsimp only at he ⊢
  have he2 := (sortDesc_mem e _).mp he
  obtain ⟨c, hc, rfl⟩ := List.mem_map.mp he2
  rw [entries_votes_sum hwf poll.id]
  show (if votesForPoll s poll.id > 0 then
        pyRound2 ((votesForCandidate s c.id : ℚ)
          / (votesForPoll s poll.id : ℚ) * 100)
      else 0)
    = if votesForPoll s poll.id = 0 then 0
      else pyRound2 ((votesForCandidate s c.id : ℚ)
        / (votesForPoll s poll.id : ℚ) * 100)
  by_cases h0 : votesForPoll s poll.id = 0
  · simp [h0]
  · have hpos : votesForPoll s poll.id > 0 := Nat.pos_of_ne_zero h0
    simp [h0, hpos]

lemma pyRound2_25_8 : pyRound2 ((25 : ℚ) / 8) = 78/25 := by
  have hfl : ⌊((25 : ℚ)/8) * 100⌋ = (312 : ℤ) := by
    rw [Int.floor_eq_iff]
    norm_num
  simp only [pyRound2, roundHalfEven, hfl]
  norm_num

lemma pyRound2_775_8 : pyRound2 ((775 : ℚ) / 8) = 2422/25 := by
  have hfl : ⌊((775 : ℚ)/8) * 100⌋ = (9687 : ℤ) := by
    rw [Int.floor_eq_iff]
    norm_num
  simp only [pyRound2, roundHalfEven, hfl]
  norm_num

lemma getPollResults_cex : getPollResults cexStore 1 = some cexResults := by
  have hfind : cexStore.findPoll 1 = some poll1 := by decide
  have hcands : pollCandidates cexStore poll1.id
      = [candidate1, candidate2] := by decide
  have h1 : votesForCandidate cexStore candidate1.id = 1 := by decide
  have h2 : votesForCandidate cexStore candidate2.id = 31 := by decide
  have h3 : votesForPoll cexStore poll1.id = 32 := by decide
  unfold getPollResults
  rw [hfind]
  simp only [Option.map_some', Option.some.injEq]
  rw [hcands]
  simp only [List.map_cons, List.map_nil, resultEntryFor, h1, h2, h3]
  norm_num
  simp [cexResults, sortDescByVotes, insertDescByVotes, poll1, candidate1,
    candidate2, pyRound2_25_8, pyRound2_775_8]

/-- C5 counterexample: candidate 1 holds 1 of 32 votes; its exact
share 3.125 is reported as 3.12 (the even hundredth), while rounding
half away from zero would give 3.13. -/
theorem poll_results_rounding_cex :
    getPollResults cexStore 1 = some cexResults
    ∧ cexResults.results.map (fun e => (e.candidate_id, e.votes, e.percentage))
        = [(2, 31, 2422/25), (1, 1, 78/25)]
    ∧ roundHalfAwayFromZero2 ((1 : ℚ) / 32 * 100) = 313/100
    ∧ ((78 : ℚ) / 25) ≠ 313/100 := by
  refine ⟨getPollResults_cex, rfl, ?_, by norm_num⟩
  have hfl : ⌊((1 : ℚ)/32 * 100) * 100 + 1/2⌋ = (313 : ℤ) := by
    rw [Int.floor_eq_iff]
    norm_num
  simp only [roundHalfAwayFromZero2]
  rw [if_pos (by norm_num)]
  rw [hfl]
  norm_num

theorem poll_results_percentage_witness :
    Store.wf cexStore
    ∧ (∀ e ∈ cexResults.results,
        e.percentage = if cexResults.total_votes = 0 then 0
          else pyRound2 ((e.votes : ℚ)
            / (cexResults.total_votes : ℚ) * 100)) :=
  ⟨by decide,
    poll_results_percentage cexStore (by decide) 1 cexResults
      getPollResults_cex⟩

/-- C9: both election write endpoints reject `start_date >= end_date`
with an error and persist nothing, accept `start_date < end_date`, and
therefore preserve the invariant that every stored election has
`start_date < end_date`. -/
theorem election_dates_checked (s : Store) (req : ElectionCreate)
    (eid : Nat) :
    (req.startDate ≥ req.endDate →
      createElection s req = .error ()
      ∧ ∀ s2, updateElection s eid req ≠ .ok s2)
    ∧ (req.startDate < req.endDate →
      (∃ e, createElection s req
          = .ok ({ s with elections := s.elections ++ [e] }, e)
        ∧ e.startDate = req.startDate ∧ e.endDate = req.endDate)
      ∧ ((s.findElection eid).isSome →
        ∃ s2, updateElection s eid req = .ok s2))
    ∧ ((∀ e ∈ s.elections, e.startDate < e.endDate) →
      (∀ s2 e2, createElection s req = .ok (s2, e2) →
        ∀ e ∈ s2.elections, e.startDate < e.endDate)
      ∧ (∀ s2, updateElection s eid req = .ok s2 →
        ∀ e ∈ s2.elections, e.startDate < e.endDate)) := by
  refine ⟨?_, ?_, ?_⟩
  · intro hbad
    constructor
    · simp [createElection, hbad]
    · intro s2
      unfold updateElection
      rcases he : s.findElection eid with _ | elec
      · simp
      · simp [hbad]
  · intro hgood
    have hng : ¬(req.startDate ≥ req.endDate) := by omega
    constructor
    · exact ⟨{ id := nextElectionId s, title := req.title, startDate := req.startDate, endDate := req.endDate, isActive := req.isActive }, by simp [createElection, hng], rfl, rfl⟩
    · intro hsome
      rcases he : s.findElection eid with _ | elec
      · rw [he] at hsome; simp at hsome
      · exact ⟨{ s with elections := s.elections.map (fun e => if e.id == eid then { e with title := req.title, startDate := req.startDate, endDate := req.endDate, isActive := req.isActive } else e) }, by unfold updateElection; rw [he, if_neg hng]⟩
  · intro hinv
    have hcr : ∀ s2 e2, createElection s req = .ok (s2, e2) →
        ∀ e ∈ s2.elections, e.startDate < e.endDate := by
      intro s2 e2 hok e hmem
      unfold createElection at hok
      by_cases hbad : req.startDate ≥ req.endDate
      · simp [hbad] at hok
      simp only [if_neg hbad] at hok
      injection hok with hok
      have hs2 : s2 = { s with elections := s.elections ++
          [{ id := nextElectionId s, title := req.title,
             startDate := req.startDate, endDate := req.endDate,
             isActive := req.isActive }] } :=
        (congrArg Prod.fst hok).symm
      rw [hs2] at hmem
      simp only [List.mem_append, List.mem_singleton] at hmem
      rcases hmem with hold | hnew
      · exact hinv e hold
      · subst hnew
        show req.startDate < req.endDate
        omega
    refine ⟨hcr, ?_⟩
    intro s2 hok e hmem
    unfold updateElection at hok
    rcases he : s.findElection eid with _ | elec <;> rw [he] at hok
    · simp at hok
    by_cases hbad : req.startDate ≥ req.endDate
    · simp [hbad] at hok
    simp only [if_neg hbad] at hok
    injection hok with hok
    rw [← hok] at hmem
    simp only [List.mem_map] at hmem
    obtain ⟨e0, he0, heq⟩ := hmem
    subst heq
    by_cases hid : (e0.id == eid) = true
    · simp only [if_pos hid]
      show req.startDate < req.endDate
      omega
    · simp only [if_neg hid]
      exact hinv e0 he0

theorem election_dates_checked_witness :
    createElection baseStore ⟨"X", 5, 5, true⟩ = .error ()
    ∧ (∃ e, createElection baseStore ⟨"Y", 0, 5, true⟩
        = .ok ({ baseStore with elections := baseStore.elections ++ [e] }, e)
      ∧ e.startDate = 0 ∧ e.endDate = 5) :=
  ⟨((election_dates_checked baseStore ⟨"X", 5, 5, true⟩ 1).1
      (by decide)).1,
   ((election_dates_checked baseStore ⟨"Y", 0, 5, true⟩ 1).2.1
      (by decide)).1⟩

theorem poll_results_sort_stable_witness :
    getPollResults baseStore 1
        = some ((getPollResults baseStore 1).getD default)
    ∧ ((getPollResults baseStore 1).getD default).results.filter
          (fun e => e.votes == 0)
        = ((pollCandidates baseStore 1).map
            (resultEntryFor baseStore 1)).filter (fun e => e.votes == 0) :=
  ⟨by decide,
    poll_results_sort_stable baseStore 1
      ((getPollResults baseStore 1).getD default) (by decide) 0⟩

end Voting
